import Mathlib

/-!
Verification of the core claims of the metaopt (orion) repository against a
shallow embedding of its Python sources.

Embedded components:
* `orion/core/io/resolve_config.py` — `merge_configs`
* `orion/core/worker/consumer.py` — `Consumer.consume`, `Consumer.interact_with_script`
* `orion/core/worker/__init__.py` — `workon`, `infer_number_of_concurrent_workers`
* `orion/storage/mahler.py` — `Mahler.register_lie`, `Mahler.fetch_trials`
* `orion/core/evc/conflicts.py` — conflict and resolution engine

Python dicts are embedded as insertion-ordered association lists, exceptions as
`Except`, and object graphs with mutable cross references (conflicts and
resolutions) as id-indexed stores with explicit state passing.
-/

/- ------------------------------------------------------------------ -/
/- Embedding of `merge_configs` (orion/core/io/resolve_config.py)      -/
/- ------------------------------------------------------------------ -/

/-- A Python value as observed by `merge_configs`: the function dispatches only
on whether a value is `None`, a `dict`, or anything else, so scalars are
represented by `Int` and `String` stand-ins. Dicts are insertion-ordered
association lists, as Python dicts are. -/
inductive PyVal where
  | pnone : PyVal
  | pint : Int → PyVal
  | pstr : String → PyVal
  | pdict : List (String × PyVal) → PyVal
deriving Repr

/-- Python `dict.get(key)`: value of the first (unique, in a real dict) entry
with the given key, or `none`. -/
def alGet : List (String × PyVal) → String → Option PyVal
  | [], _ => none
  | (k, v) :: rest, key => if k = key then some v else alGet rest key

/-- Python `d[key] = v`: replace the existing entry in place, keeping its
position, or append a new entry at the end. -/
def alSet : List (String × PyVal) → String → PyVal → List (String × PyVal)
  | [], key, v => [(key, v)]
  | (k, w) :: rest, key, v =>
    if k = key then (k, v) :: rest else (k, w) :: alSet rest key v

/-- Embedding of the inner loop of `merge_configs` for a single pair
(`merged_config`, `config`) (resolve_config.py lines 157-162): iterate over
`config.items()`; a dict value meeting a dict merges recursively, a `None`
value is skipped, any other value is assigned. -/
def merge2 : List (String × PyVal) → List (String × PyVal) → List (String × PyVal)
  | merged, [] => merged
  | merged, (k, PyVal.pdict d) :: rest =>
    (match alGet merged k with
     | some (PyVal.pdict d0) => merge2 (alSet merged k (PyVal.pdict (merge2 d0 d))) rest
     | _ => merge2 (alSet merged k (PyVal.pdict d)) rest)
  | merged, (_, PyVal.pnone) :: rest => merge2 merged rest
  | merged, (k, v) :: rest => merge2 (alSet merged k v) rest
termination_by _ l => sizeOf l
decreasing_by all_goals (simp_wf <;> omega)

/-- Embedding of `merge_configs(*configs)` (resolve_config.py lines 113-164):
left-to-right fold of `merge2` starting from the first configuration. -/
def mergeConfigs (c : List (String × PyVal)) (cs : List (List (String × PyVal))) :
    List (String × PyVal) :=
  cs.foldl merge2 c

/-- The per-key merge rule as the specification words it, for comparison with
`merge2`: given the later configuration's value for a key (first argument)
and the accumulated value (second argument), a later value overwrites the
earlier one, except that `None` never overwrites, a key absent from the later
dict keeps the earlier value, and two dicts merge recursively. -/
def mergeSpecLookup : Option PyVal → Option PyVal → Option PyVal
  | none, old => old
  | some PyVal.pnone, old => old
  | some (PyVal.pdict d), some (PyVal.pdict d0) => some (PyVal.pdict (merge2 d0 d))
  | some (PyVal.pdict d), _ => some (PyVal.pdict d)
  | some v, _ => some v

/- ------------------------------------------------------------------ -/
/- Embedding of the Consumer (orion/core/worker/consumer.py)           -/
/- ------------------------------------------------------------------ -/

/-- Orion trial status values relevant to the consumer. -/
inductive TrialStatus where
  | completed
  | broken
  | interrupted
  | suspended
deriving DecidableEq, Repr

/-- A parsed entry of the results file (`Trial.Result(name, type, value)`).
Values are representative `Int`s; the consumer never inspects them. -/
structure ResultRec where
  name : String
  rtype : String
  value : Int
deriving DecidableEq, Repr

deriving instance DecidableEq for Except

/-- Outcome of `Consumer.interact_with_script` (consumer.py lines 241-287).
`result` is `.error e` when `sys.exit(e)` (a `SystemExit`) propagates out of
the call, `.ok rc` when the call returns `rc` normally. `attached` is the
value assigned to `current_trial.results`, `none` when the parse was skipped
or raised `ValueError` (empty file). -/
structure InteractOutcome where
  result : Except Int Int
  attached : Option (List ResultRec)
deriving DecidableEq, Repr

/-- Embedding of `Consumer.interact_with_script` for a run in which no signal
arrives. External inputs: `poll` is `launch_process`'s immediate
`process.poll()` result (`some rc` when the child already terminated when
launched), `waitCode` is the exit code later observed by `process.wait()`,
and `parsed` is the content of the results file (`none` when unparseable).

Control flow from the source: when `poll` is `some rc` the function returns
`rc` at once (line 260-261), without parsing the results file and without the
exit-code-2 handling. Otherwise it waits, and inside a `try` block exits with
`sys.exit(2)` when the code is 2 (lines 270-276); the `finally` block parses
the results file and attaches the results in every case (lines 277-285). -/
def interactWithScript (poll : Option Int) (waitCode : Int)
    (parsed : Option (List ResultRec)) : InteractOutcome :=
  match poll with
  | some rc => { result := Except.ok rc, attached := none }
  | none =>
    if waitCode ≠ 0 then
      if waitCode = 2 then { result := Except.error 2, attached := parsed }
      else { result := Except.ok waitCode, attached := parsed }
    else { result := Except.ok waitCode, attached := parsed }

/-- Observable outcome of `Consumer.consume`: the status pushed through
`experiment.push_completed_trial`, the results attached to the trial, and the
`SystemExit` code propagating out of `consume` (terminating the worker), if
any. -/
structure ConsumeOutcome where
  pushed : TrialStatus
  attached : Option (List ResultRec)
  propagated : Option Int
deriving DecidableEq, Repr

/-- Embedding of `Consumer.consume` (consumer.py lines 113-207) for a run in
which no signal arrives (no `SIGTERM`, no `KeyboardInterrupt`).

From the source: `returncode = self._consume()`; a `SystemExit` escaping it
sets `new_status = 'broken'` and is re-raised (lines 195-197); the `finally`
block pushes the trial as completed when `returncode == 0`, as broken when it
is a non-zero int, and with `new_status` when `_consume` raised
(lines 199-207). -/
def consumeRun (poll : Option Int) (waitCode : Int)
    (parsed : Option (List ResultRec)) : ConsumeOutcome :=
  let io := interactWithScript poll waitCode parsed
  match io.result with
  | Except.error e =>
    { pushed := TrialStatus.broken, attached := io.attached, propagated := some e }
  | Except.ok rc =>
    if rc = 0 then
      { pushed := TrialStatus.completed, attached := io.attached, propagated := none }
    else
      { pushed := TrialStatus.broken, attached := io.attached, propagated := none }

/- ------------------------------------------------------------------ -/
/- Embedding of the worker loop (orion/core/worker/__init__.py)        -/
/- ------------------------------------------------------------------ -/

/-- State of the experiment and of the worker's producer as observed by
`workon`. The experiment lives in shared storage and is only read through its
interface (`is_broken`, `pool_size`, `is_done`, `reserve_trial`, the trial
count queried by `infer_number_of_concurrent_workers`), so those observations
are fields. `pending` lists the trials successive `reserve_trial` calls hand
out; `consumed` logs the trials passed to `consumer.consume`, each modelled as
a successful evaluation pushed as completed; `updates` and `produces` count
`producer.update()` and `producer.produce()` calls. -/
structure ExpState where
  isBroken : Bool
  poolSize : Nat
  running : Nat
  pending : List Nat
  isDone : Bool
  completedCount : Nat
  consumed : List Nat
  updates : Nat
  produces : Nat
deriving DecidableEq, Repr

/-- Embedding of the `for _ in iterator` loop of `workon`
(worker/__init__.py lines 58-86) together with the final `return 0`
(line 102). The fuel is `int(worker_trials)`, the size of
`range(int(worker_trials))`. Each iteration: a broken experiment returns exit
code 1 (lines 59-61); `infer_number_of_concurrent_workers(experiment) >=
pool_size` returns exit code 0 (lines 62-67); otherwise a trial is reserved;
on `None` the producer updates, the loop breaks when the experiment is done
(post-loop code returns 0) and produces otherwise; a reserved trial is
consumed. -/
def workonLoop : Nat → ExpState → Int × ExpState
  | 0, s => (0, s)
  | Nat.succ n, s =>
    if s.isBroken then (1, s)
    else if s.poolSize ≤ s.running then (0, s)
    else
      match s.pending with
      | [] =>
        let s1 := { s with updates := s.updates + 1 }
        if s1.isDone then (0, s1)
        else workonLoop n { s1 with produces := s1.produces + 1 }
      | t :: rest =>
        workonLoop n { s with pending := rest,
                              consumed := s.consumed ++ [t],
                              completedCount := s.completedCount + 1 }

/- ------------------------------------------------------------------ -/
/- Embedding of the Mahler storage backend (orion/storage/mahler.py)   -/
/- ------------------------------------------------------------------ -/

/-- The `TRIAL_TAG` constant of mahler.py (line 336). -/
def TRIAL_TAG : String := "orion-trial"

/-- A mahler task as queried by `Mahler._fetch_trials`: its
`attributes['_id']`, `attributes['experiment']`, its tags, its `created_on`
timestamp (the `submit_time` of the wrapping `TrialAdapter`, possibly absent)
and its mahler status name. Timestamps are representative `Int`s. -/
structure MTask where
  attrId : String
  experiment : String
  tags : List String
  submitTime : Option Int
  status : String
deriving DecidableEq, Repr

/-- An orion trial as passed to `Mahler.register_lie`; only its id is ever
read there. -/
structure LieTrial where
  id : String
deriving DecidableEq, Repr

/-- State of a `Mahler` storage object: the tasks reachable through
`self.client.find` (shared storage), and the instance attributes read by the
embedded methods: the in-process `self.lies` dict (keyed by trial id, in
insertion order), `self.tags` and `self.ignore_tags`. -/
structure MahlerState where
  clientTasks : List MTask
  lies : List (String × LieTrial)
  stags : List String
  ignoreTags : List String
deriving DecidableEq, Repr

/-- Embedding of `Mahler.register_lie` (mahler.py lines 451-472): raise
`DuplicateKeyError` when `trial.id in self.lies`, else store the trial in the
in-process map and return it. -/
def registerLie (s : MahlerState) (t : LieTrial) : Except Unit (LieTrial × MahlerState) :=
  if (s.lies.map Prod.fst).contains t.id then Except.error ()
  else Except.ok (t, { s with lies := s.lies ++ [(t.id, t)] })

/-- Embedding of `Mahler._should_ignore` (mahler.py lines 424-425): true when
`self.ignore_tags` intersects the task's tags. -/
def shouldIgnore (s : MahlerState) (tags : List String) : Bool :=
  s.ignoreTags.any (fun tg => tags.contains tg)

/-- Matching of a task against the `mahler_query` built by
`Mahler._fetch_trials` (mahler.py lines 483-494): attribute `experiment`
equals the queried experiment, the task carries all of `[TRIAL_TAG] +
self.tags`, and, when the query has a status filter, the task's status is in
the (already converted) list. -/
def taskMatches (s : MahlerState) (exp : String) (statusFilter : Option (List String))
    (t : MTask) : Bool :=
  t.experiment = exp
  && (TRIAL_TAG :: s.stags).all (fun tg => t.tags.contains tg)
  && (match statusFilter with
      | none => true
      | some l => l.contains t.status)

/-- The `sort_key` closure of `Mahler._fetch_trials` (mahler.py lines
476-480): `submit_time`, or 0 when it is `None`. -/
def mahlerSortKey (t : MTask) : Int :=
  match t.submitTime with
  | none => 0
  | some v => v

/-- Embedding of `Mahler._fetch_trials` (mahler.py lines 474-496): filter the
client's tasks by the query and by `_should_ignore`, then stable-sort by
`sort_key`. Each returned `TrialAdapter` is represented by its underlying
task (the adapter's `id` is `task.attributes['_id']`). The orion-to-mahler
status conversion happens before this function in the model; `fetch_trials`
passes no status. -/
def fetchTrialsQ (s : MahlerState) (exp : String) (statusFilter : Option (List String)) :
    List MTask :=
  List.insertionSort (fun a b => mahlerSortKey a ≤ mahlerSortKey b)
    ((s.clientTasks.filter (taskMatches s exp statusFilter)).filter
      (fun t => ¬ shouldIgnore s t.tags))

/-- Embedding of `Mahler.fetch_trials` (mahler.py lines 556-567) with the
experiment uid already extracted: `_fetch_trials(dict(experiment=uid))`, with
no status filter. -/
def fetchTrials (s : MahlerState) (uid : String) : List MTask :=
  fetchTrialsQ s uid none

/- ------------------------------------------------------------------ -/
/- Embedding of the EVC engine (orion/core/evc/conflicts.py)           -/
/- ------------------------------------------------------------------ -/

/-- The concrete `Conflict` subclasses of conflicts.py. -/
inductive CKind where
  | newDim
  | changedDim
  | missingDim
  | algorithmC
  | codeC
  | commandLineC
  | scriptConfigC
  | experimentNameC
deriving DecidableEq, Repr

/-- The concrete `Resolution` subclasses of conflicts.py. -/
inductive RKind where
  | addDim
  | changeDim
  | renameDim
  | removeDim
  | algorithmR
  | codeR
  | commandLineR
  | scriptConfigR
  | experimentNameR
deriving DecidableEq, Repr

/-- A `Dimension` as read by the conflict engine: its name (in the standard
command-line form produced by `standard_param_name`, which is not under
`src/` and is taken as identity here), its prior interval, and its optional
default value (`none` embeds `Dimension.NO_DEFAULT_VALUE`). Values are
representative `Int`s; `v in dimension` is the interval test `lo ≤ v ≤ hi`
and `dimension.cast` is integer parsing, raising on failure. -/
structure DimData where
  name : String
  lo : Int
  hi : Int
  defaultValue : Option Int
deriving DecidableEq, Repr

/-- Membership test `value in dimension`. -/
def dimContains (d : DimData) (v : Int) : Bool :=
  d.lo ≤ v && v ≤ d.hi

/-- A `Conflict` object (conflicts.py lines 276-393 and subclasses): its
class, the per-class payload (`dimension`, `prior` for new and missing
dimension conflicts, `old_prior`/`new_prior` for changed dimension
conflicts), the extended user arguments `_build_extended_user_args(new_config)`
that marker search scans (the space builder is not under `src/`, so the
extended argument list is carried directly), the `_is_resolved` attribute
(`some false` on construction; `Conflicts.try_resolve` can set it to `none`,
Python `None`) and the `resolution` pointer, an id into the resolution
store. -/
structure ConflictRec where
  kind : CKind
  dim : Option DimData
  prior : Option String
  oldPrior : Option String
  newPrior : Option String
  extArgs : List String
  isResolvedFlag : Option Bool
  resolution : Option Nat
deriving DecidableEq, Repr

/-- The `Conflict.is_resolved` property (conflicts.py lines 319-322):
`self._is_resolved or self.resolution is not None` (Python `None` is falsy).
-/
def isResolved (c : ConflictRec) : Bool :=
  c.isResolvedFlag == some true || c.resolution.isSome

/-- A `Resolution` object (conflicts.py lines 396-509 and subclasses): its
class, the id of its conflict, the id of the paired new-dimension conflict
(rename only), the `new_conflicts` list of side-effect conflict ids, and the
default value payload of add and remove resolutions. -/
structure ResolutionRec where
  kind : RKind
  conflictId : Nat
  newDimConflictId : Option Nat
  newConflicts : List Nat
  defaultValue : Option Int
deriving DecidableEq, Repr

/-- The object graph and handler state: id-indexed stores of all live conflict
and resolution objects, the `Conflicts.conflicts` list of the handler
(conflicts.py line 121) as ids into the store, and a fresh-id counter for
newly constructed objects. -/
structure EvcState where
  conflicts : List (Nat × ConflictRec)
  resolutions : List (Nat × ResolutionRec)
  handler : List Nat
  nextId : Nat
deriving DecidableEq, Repr

/-- Look up a conflict object by id. -/
def lookupC (s : EvcState) (i : Nat) : Option ConflictRec :=
  (s.conflicts.find? (fun p => p.1 = i)).map Prod.snd

/-- Look up a resolution object by id. -/
def lookupR (s : EvcState) (i : Nat) : Option ResolutionRec :=
  (s.resolutions.find? (fun p => p.1 = i)).map Prod.snd

/-- Mutate the conflict object with id `i` in place. -/
def updateC (s : EvcState) (i : Nat) (f : ConflictRec → ConflictRec) : EvcState :=
  { s with conflicts := s.conflicts.map (fun p => if p.1 = i then (p.1, f p.2) else p) }

/-- Mutate the resolution object with id `i` in place. -/
def updateR (s : EvcState) (i : Nat) (f : ResolutionRec → ResolutionRec) : EvcState :=
  { s with resolutions := s.resolutions.map (fun p => if p.1 = i then (p.1, f p.2) else p) }

/-- Embedding of `MissingDimensionConflict.RenameDimensionResolution.__init__`
(conflicts.py lines 890-916) applied to the missing-dimension conflict `cid`
and the new-dimension conflict `nid`: the base `Resolution.__init__` sets
`conflict.resolution = self` (line 444), the constructor also sets
`new_dimension_conflict.resolution = self` (line 907), and when the two
priors differ it creates one side-effect `ChangedDimensionConflict` carrying
the new dimension, the missing dimension's prior as `old_prior` and the new
dimension's prior as `new_prior` (lines 909-916), appending it to
`self.new_conflicts`. The side-effect object is created but registered in no
handler list. Returns the new resolution id and state, or `none` when either
id is dangling. -/
def mkRenameResolution (s : EvcState) (cid nid : Nat) : Option (Nat × EvcState) :=
  match lookupC s cid, lookupC s nid with
  | some mc, some nc =>
    let rid := s.nextId
    let s1 := updateC s cid (fun c => { c with resolution := some rid })
    let s2 := updateC s1 nid (fun c => { c with resolution := some rid })
    if mc.prior ≠ nc.prior then
      let ccid := rid + 1
      let cc : ConflictRec :=
        { kind := CKind.changedDim, dim := nc.dim, prior := none,
          oldPrior := mc.prior, newPrior := nc.prior, extArgs := mc.extArgs,
          isResolvedFlag := some false, resolution := none }
      some (rid,
        { s2 with conflicts := s2.conflicts ++ [(ccid, cc)],
                  resolutions := s2.resolutions ++
                    [(rid, { kind := RKind.renameDim, conflictId := cid,
                             newDimConflictId := some nid, newConflicts := [ccid],
                             defaultValue := none })],
                  nextId := rid + 2 })
    else
      some (rid,
        { s2 with resolutions := s2.resolutions ++
                    [(rid, { kind := RKind.renameDim, conflictId := cid,
                             newDimConflictId := some nid, newConflicts := [],
                             defaultValue := none })],
                  nextId := rid + 1 })
  | _, _ => none

/-- Embedding of `Resolution.revert` dispatched on the resolution's class:
`RenameDimensionResolution.revert` (conflicts.py lines 918-931) nulls the
conflict's and the paired new-dimension conflict's `resolution` pointers,
sets `_is_resolved = True` on the first deprecated side-effect conflict when
there is one (line 927), empties `self.new_conflicts` and returns the
deprecated ids; the base `Resolution.revert` (lines 471-474) nulls the
conflict's `resolution` pointer and returns the empty list
(`ExperimentNameResolution.revert` additionally restores the experiment name
in `new_config`, which this embedding does not track, before calling the base
method). Returns `none` on a dangling resolution id. -/
def resolutionRevert (s : EvcState) (rid : Nat) : Option (List Nat × EvcState) :=
  match lookupR s rid with
  | none => none
  | some r =>
    if r.kind = RKind.renameDim then
      let s1 := updateC s r.conflictId (fun c => { c with resolution := none })
      let s2 := match r.newDimConflictId with
                | some nid => updateC s1 nid (fun c => { c with resolution := none })
                | none => s1
      let dep := r.newConflicts
      let s3 := match dep with
                | d0 :: _ => updateC s2 d0 (fun c => { c with isResolvedFlag := some true })
                | [] => s2
      let s4 := updateR s3 rid (fun r0 => { r0 with newConflicts := [] })
      some (dep, s4)
    else
      some ([], updateC s r.conflictId (fun c => { c with resolution := none }))

/-- Embedding of `Conflicts.deprecate` (conflicts.py lines 230-233): pop each
given conflict from the handler list at the index found by
`list.index` (its first occurrence); `none` embeds the `ValueError` raised by
`index` when a conflict is not in the list. -/
def deprecate (s : EvcState) (dep : List Nat) : Option EvcState :=
  dep.foldlM
    (fun st i =>
      if st.handler.contains i then some { st with handler := st.handler.erase i }
      else none)
    s

/-- Embedding of `Conflicts.revert` (conflicts.py lines 127-132) with the
resolution identified by id rather than by its string representation:
`self.deprecate(resolution.revert())`. -/
def conflictsRevert (s : EvcState) (rid : Nat) : Option EvcState :=
  (resolutionRevert s rid).bind (fun p => deprecate p.2 p.1)

/-- Outcome of a call to the underlying `conflict.try_resolve(*args,
**kwargs)` inside `Conflicts.try_resolve`: either an exception escapes
(`ki = true` for `KeyboardInterrupt`) leaving the state as mutated so far, or
the call returns `None` or a resolution id together with the mutated state. -/
inductive TryResolveOutcome where
  | raised (ki : Bool) (state : EvcState)
  | returned (res : Option Nat) (state : EvcState)

/-- Embedding of the wrapper `Conflicts.try_resolve` (conflicts.py lines
235-273), with the dispatched `conflict.try_resolve` call abstracted as `f`.
A `KeyboardInterrupt` is re-raised (`none`); any other exception makes the
wrapper set `conflict.resolution = None` and `conflict._is_resolved = None`
and return `None`; a truthy resolution has its `new_conflicts` appended to
the handler's list. -/
def conflictsTryResolve (f : EvcState → TryResolveOutcome) (cid : Nat) (s : EvcState) :
    Option (Option Nat × EvcState) :=
  match f s with
  | TryResolveOutcome.raised true _ => none
  | TryResolveOutcome.raised false s' =>
    some (none, updateC s' cid (fun c => { c with resolution := none, isResolvedFlag := none }))
  | TryResolveOutcome.returned none s' => some (none, s')
  | TryResolveOutcome.returned (some rid) s' =>
    some (some rid,
      { s' with handler := s'.handler ++ (((lookupR s' rid).map
          (fun r => r.newConflicts)).getD []) })

/-- The rename marker `~>` of `RenameDimensionResolution` (conflicts.py line
888), as characters. -/
def renameMarkerL : List Char := ['~', '>']

/-- The remove marker `~-` of `RemoveDimensionResolution` (conflicts.py line
966), as characters. -/
def removeMarkerL : List Char := ['~', '-']

/-- Python `str.split(sep)` for a two-character separator, on character
lists: split at every non-overlapping occurrence of `a, b`, scanning left to
right. (Lean core string functions are defined by well-founded recursion and
do not evaluate inside the kernel, so the embedding works on `List Char`.) -/
def splitOn2 (a b : Char) : List Char → List (List Char)
  | [] => [[]]
  | [c] => [[c]]
  | c :: d :: rest =>
    if c = a ∧ d = b then [] :: splitOn2 a b rest
    else
      match splitOn2 a b (d :: rest) with
      | [] => [[c]]
      | piece :: pieces => (c :: piece) :: pieces

/-- Python `sep.join(pieces)` on character lists. -/
def joinSep (sep : List Char) : List (List Char) → List Char
  | [] => []
  | [p] => p
  | p :: ps => p ++ sep ++ joinSep sep ps

/-- Value of a decimal digit character. -/
def digitVal (c : Char) : Option Nat :=
  if c.isDigit then some (c.toNat - 48) else none

/-- Accumulate decimal digits left to right. -/
def parseDigitsAux : List Char → Nat → Option Nat
  | [], acc => some acc
  | c :: rest, acc =>
    match digitVal c with
    | none => none
    | some d => parseDigitsAux rest (acc * 10 + d)

/-- Integer parsing on character lists, standing in for `dimension.cast`
(an integer dimension casts the marker text; failure raises). -/
def parseIntL : List Char → Option Int
  | [] => none
  | '-' :: rest =>
    if rest.isEmpty then none
    else (parseDigitsAux rest 0).map (fun n => -(n : Int))
  | cs => (parseDigitsAux cs 0).map (fun n => (n : Int))

/-- Python `str.lstrip('-')` on character lists: drop every leading dash. -/
def dropDashesL (a : List Char) : List Char :=
  a.dropWhile (fun ch => ch = '-')

/-- Embedding of `Resolution.find_marked_argument` for marker resolutions
(conflicts.py lines 488-502): the first extended user argument whose
dash-stripped form starts with the resolution's prefix (dimension name glued
to the marker). -/
def findMarked (extArgs : List String) (pfx : List Char) : Option String :=
  extArgs.find? (fun a => pfx.isPrefixOf (dropDashesL a.toList))

/-- The `{'default_value': ...}` dictionary returned by
`get_marked_remove_arguments`: either `Dimension.NO_DEFAULT_VALUE` or a cast
value. -/
inductive RemovePayload where
  | noDefault
  | withDefault (v : Int)
deriving DecidableEq, Repr

/-- Embedding of `MissingDimensionConflict.get_marked_remove_arguments`
(conflicts.py lines 770-797). A resolved conflict returns `{}`;
`copy.deepcopy(self).try_resolve()` builds a `RemoveDimensionResolution`
whose validation raises `ValueError` when the dimension's own default value
falls outside its interval (lines 986-1001); then the remove marker
`name ++ "~-"` is searched for, the text after the marker
(`arguments.split(MARKER)[1]`) is empty (meaning `NO_DEFAULT_VALUE`) or is
cast by the dimension (raising on failure), and the argument dictionary is
returned. `Except.error` embeds a propagating exception, `Except.ok none`
the empty dictionary. -/
def getMarkedRemoveArguments (c : ConflictRec) : Except Unit (Option RemovePayload) :=
  if isResolved c then Except.ok none
  else
    match c.dim with
    | none => Except.error ()
    | some d =>
      let okDefault : Bool :=
        match d.defaultValue with
        | none => true
        | some v => dimContains d v
      if ¬ okDefault then Except.error ()
      else
        match findMarked c.extArgs (d.name.toList ++ removeMarkerL) with
        | none => Except.ok none
        | some arg =>
          let piece := (splitOn2 '~' '-' arg.toList).getD 1 []
          if piece = [] then Except.ok (some RemovePayload.noDefault)
          else
            match parseIntL piece with
            | none => Except.error ()
            | some v => Except.ok (some (RemovePayload.withDefault v))

/-- The conflict objects currently in the handler's list, in order
(`Conflicts._get`, conflicts.py lines 134-137). -/
def handlerConflicts (s : EvcState) : List (Nat × ConflictRec) :=
  s.handler.filterMap (fun i => (lookupC s i).map (fun c => (i, c)))

/-- `conflicts.get([NewDimensionConflict])` (conflicts.py lines 139-178):
the handler's conflicts of class `NewDimensionConflict`. -/
def newDimConflictsOf (s : EvcState) : List (Nat × ConflictRec) :=
  (handlerConflicts s).filter (fun p => p.2.kind = CKind.newDim)

/-- Embedding of `MissingDimensionConflict.get_marked_rename_arguments`
(conflicts.py lines 799-836). With no new-dimension conflict available, or a
resolved conflict (so that the deep copy's `try_resolve` returns `None`), or
no rename marker `name ++ "~>"` in the extended user arguments, the empty
dictionary is returned. Otherwise the rename target name is the text after
the first `"~>"` of the marked argument; when no new-dimension conflict
carries that name the `ValueError` of `Conflicts.get` is re-raised (lines
822-829); when the found conflict is already resolved its resolution is
reverted (line 831-832; the lookup of the resolution by its string
representation is embedded as the direct id lookup, and a flag-only resolved
conflict whose pointer is `None` raises). The found conflict is returned as
the argument dictionary. -/
def getMarkedRenameArguments (s : EvcState) (c : ConflictRec) :
    Except Unit (Option Nat × EvcState) :=
  match newDimConflictsOf s with
  | [] => Except.ok (none, s)
  | _ :: _ =>
    if isResolved c then Except.ok (none, s)
    else
      match findMarked c.extArgs (((c.dim.map DimData.name).getD "").toList ++ renameMarkerL) with
      | none => Except.ok (none, s)
      | some arg =>
        let newName := joinSep renameMarkerL ((splitOn2 '~' '>' arg.toList).drop 1)
        match (newDimConflictsOf s).filter
            (fun p => ((p.2.dim.map DimData.name).getD "").toList = newName) with
        | [] => Except.error ()
        | (ni, ncon) :: _ =>
          if isResolved ncon then
            match ncon.resolution with
            | some rid =>
              match conflictsRevert s rid with
              | some s' => Except.ok (some ni, s')
              | none => Except.error ()
            | none => Except.error ()
          else Except.ok (some ni, s)

/-- The argument dictionary returned by
`MissingDimensionConflict.get_marked_arguments`: remove arguments or a
rename argument (the paired new-dimension conflict). -/
inductive MarkedArgs where
  | removeA (p : RemovePayload)
  | renameA (n : Nat)
deriving DecidableEq, Repr

/-- Embedding of `MissingDimensionConflict.get_marked_arguments`
(conflicts.py lines 754-767): return the marked remove arguments when they
are non-empty, else fall back to the marked rename arguments. -/
def getMarkedArguments (s : EvcState) (c : ConflictRec) :
    Except Unit (Option MarkedArgs × EvcState) :=
  match getMarkedRemoveArguments c with
  | Except.error _ => Except.error ()
  | Except.ok (some p) => Except.ok (some (MarkedArgs.removeA p), s)
  | Except.ok none =>
    match getMarkedRenameArguments s c with
    | Except.error _ => Except.error ()
    | Except.ok (none, s') => Except.ok (none, s')
    | Except.ok (some n, s') => Except.ok (some (MarkedArgs.renameA n), s')

/-- Comparison of registry entries by name, as in
`sorted(Conflict.__subclasses__(), key=lambda cls: cls.__name__)`. -/
def keyLe {β : Type _} (a b : String × β) : Prop :=
  a.1 ≤ b.1

/-- Strict comparison of registry entries by name. -/
def keyLt {β : Type _} (a b : String × β) : Prop :=
  a.1 < b.1

instance {β : Type _} : DecidableRel (@keyLe β) :=
  fun a b => inferInstanceAs (Decidable (a.1 ≤ b.1))

instance {β : Type _} : IsTotal (String × β) keyLe :=
  ⟨fun a b => le_total a.1 b.1⟩

instance {β : Type _} : IsTrans (String × β) keyLe :=
  ⟨fun _ _ _ h1 h2 => le_trans h1 h2⟩

instance {β : Type _} : IsAntisymm (String × β) keyLt :=
  ⟨fun _ _ h1 h2 => absurd (lt_trans h1 h2) (lt_irrefl _)⟩

/-- Embedding of `detect_conflicts` (conflicts.py lines 93-100) over an
explicit registry of conflict classes (the runtime `Conflict.__subclasses__()`
list, whose order registration determines), each entry being the class name
and its `detect` class method: sort the registry by class name, then collect
every detected conflict in order (`Conflicts.register` appends,
line 123-125). -/
def detectConflictsWith {γ κ : Type _} (registry : List (String × (γ → γ → List κ)))
    (oldConfig newConfig : γ) : List κ :=
  (List.insertionSort keyLe registry).flatMap (fun e => e.2 oldConfig newConfig)

/- ------------------------------------------------------------------ -/
/- Concrete sample states used by witnesses and counterexamples        -/
/- ------------------------------------------------------------------ -/

/-- A baseline experiment state for worker-loop witnesses. -/
def sampleExp : ExpState :=
  { isBroken := false, poolSize := 1, running := 0, pending := [], isDone := false,
    completedCount := 0, consumed := [], updates := 0, produces := 0 }

/-- Experiment state for the C8 counterexample: the experiment already has
five completed trials while the worker quota is two, and two trials are
reservable. -/
def c8State : ExpState :=
  { isBroken := false, poolSize := 5, running := 0, pending := [10, 11], isDone := false,
    completedCount := 5, consumed := [], updates := 0, produces := 0 }

/-- Dimension `x` over the interval 0..10, used by concrete EVC scenarios. -/
def dimX : DimData := { name := "x", lo := 0, hi := 10, defaultValue := none }

/-- Dimension `y` over the interval 0..10, used by concrete EVC scenarios. -/
def dimY : DimData := { name := "y", lo := 0, hi := 10, defaultValue := none }

/-- A missing-dimension conflict on `x` whose new configuration carries both a
remove marker `-x~-3` and a rename marker `-x~>y`. -/
def missingX : ConflictRec :=
  { kind := CKind.missingDim, dim := some dimX, prior := some "uniform(0, 10)",
    oldPrior := none, newPrior := none, extArgs := ["-x~-3", "-x~>y"],
    isResolvedFlag := some false, resolution := none }

/-- A new-dimension conflict on `y` with a prior differing from the one of
`x`. -/
def newDimY : ConflictRec :=
  { kind := CKind.newDim, dim := some dimY, prior := some "uniform(0, 5)",
    oldPrior := none, newPrior := none, extArgs := ["-x~-3", "-x~>y"],
    isResolvedFlag := some false, resolution := none }

/-- The EVC store holding `missingX` (id 0) and `newDimY` (id 1), both in the
handler's list. -/
def evcS0 : EvcState :=
  { conflicts := [(0, missingX), (1, newDimY)], resolutions := [], handler := [0, 1],
    nextId := 2 }

/-- `evcS0` after `RenameDimensionResolution(missingX, newDimY)`: resolution
id 2, side-effect changed-dimension conflict id 3 (the priors differ). -/
def evcS1 : EvcState :=
  ((mkRenameResolution evcS0 0 1).map Prod.snd).getD evcS0

/-- `evcS1` with the side-effect conflict registered in the handler's list,
as `Conflicts.try_resolve` does. -/
def evcS2 : EvcState :=
  { evcS1 with handler := evcS1.handler ++ [3] }

/-- `evcS2` after `Conflicts.revert` of the rename resolution. -/
def evcS3 : EvcState :=
  (conflictsRevert evcS2 2).getD evcS2

/-- An EVC state holding a non-rename (remove-dimension) resolution id 1 on
conflict 0, exercising the base `Resolution.revert`. -/
def evcBase : EvcState :=
  { conflicts := [(0, { missingX with resolution := some 1 })],
    resolutions := [(1, { kind := RKind.removeDim, conflictId := 0,
                          newDimConflictId := none, newConflicts := [],
                          defaultValue := some 3 })],
    handler := [0], nextId := 2 }

/-- An EVC state whose conflict 0 carries a stale resolution pointer and
resolved flag, standing for the partial mutations left behind by a
`conflict.try_resolve` call that raised. -/
def c10sp : EvcState :=
  { conflicts := [(0, { missingX with resolution := some 9, isResolvedFlag := some true })],
    resolutions := [], handler := [0], nextId := 1 }

/-- An EVC state holding one resolution (id 1) with one side-effect conflict
id 7, for the success branch of the `Conflicts.try_resolve` wrapper. -/
def c10sq : EvcState :=
  { conflicts := [(0, missingX)],
    resolutions := [(1, { kind := RKind.renameDim, conflictId := 0,
                          newDimConflictId := none, newConflicts := [7],
                          defaultValue := none })],
    handler := [0], nextId := 2 }

/-- A client task for the C7 witness. -/
def w7task : MTask :=
  { attrId := "t1", experiment := "e1", tags := ["orion-trial"], submitTime := some 3,
    status := "Completed" }

/-- A Mahler storage state for the C7 witness: one client task and one
already-registered lie. -/
def w7state : MahlerState :=
  { clientTasks := [w7task], lies := [("lie1", { id := "lie1" })], stags := [],
    ignoreTags := [] }

/- ------------------------------------------------------------------ -/
/- Theorems                                                            -/
/- ------------------------------------------------------------------ -/

/-- C1, counterexample: the claim says that for every consumed trial an exit
code of exactly 2 is propagated via `sys.exit(2)` and that an exit code 0
comes with the results file being parsed and attached. When the child has
already terminated at the `poll()` call made right after `Popen`
(consumer.py lines 299-304), `interact_with_script` returns the exit code
immediately (lines 260-261): here the child exited with code 2, the trial is
pushed as broken, but nothing is parsed or attached and no `SystemExit`
propagates, so the worker is not terminated. -/
theorem C1_counterexample :
    (consumeRun (some 2) 0 (some [])).pushed = TrialStatus.broken ∧
    (consumeRun (some 2) 0 (some [])).attached = none ∧
    (consumeRun (some 2) 0 (some [])).propagated = none := by
  decide

/-- C1, amended: for every trial consumed on the ordinary path — the child
still running at the initial poll, so that its exit code is observed by
`wait()` — exit code 0 parses the results file, attaches the parsed results
and pushes the trial as completed; any non-zero exit code pushes the trial as
broken; and exit code 2 additionally propagates `sys.exit(2)`, terminating
the worker. (The results file is in fact parsed and attached on every
non-early path, whatever the exit code.) -/
theorem C1_consume_exit_codes (waitCode : Int) (parsed : Option (List ResultRec)) :
    (consumeRun none waitCode parsed).pushed
        = (if waitCode = 0 then TrialStatus.completed else TrialStatus.broken) ∧
    (consumeRun none waitCode parsed).attached = parsed ∧
    (consumeRun none waitCode parsed).propagated
        = (if waitCode = 2 then some 2 else none) := by
  by_cases h0 : waitCode = 0
  · subst h0
    refine ⟨by norm_num [consumeRun, interactWithScript], ?_, ?_⟩ <;>
      norm_num [consumeRun, interactWithScript]
  · by_cases h2 : waitCode = 2
    · subst h2
      refine ⟨?_, ?_, ?_⟩ <;> norm_num [consumeRun, interactWithScript]
    · refine ⟨?_, ?_, ?_⟩ <;> simp [consumeRun, interactWithScript, h0, h2]

/-- C2: in every iteration of the `workon` loop, a broken experiment makes the
function return exit code 1 with the experiment state untouched (no trial
reserved or consumed), and otherwise a count of reserved-or-running trials at
least `pool_size` makes it return exit code 0, again with the state
untouched. -/
theorem C2_workon_guards (n : Nat) (s : ExpState) :
    (s.isBroken = true → workonLoop (n + 1) s = (1, s)) ∧
    (s.isBroken = false → s.poolSize ≤ s.running → workonLoop (n + 1) s = (0, s)) := by
  constructor
  · intro h
    simp [workonLoop, h]
  · intro h hp
    simp [workonLoop, h, hp]

/-- C2, witness: the guards at a broken state and at a saturated pool. -/
theorem C2_workon_guards_witness :
    workonLoop 1 { sampleExp with isBroken := true } = (1, { sampleExp with isBroken := true }) ∧
    workonLoop 1 { sampleExp with running := 3 } = (0, { sampleExp with running := 3 }) :=
  ⟨(C2_workon_guards 0 { sampleExp with isBroken := true }).1 (by decide),
   (C2_workon_guards 0 { sampleExp with running := 3 }).2 (by decide) (by decide)⟩

/-- C8, counterexample: the claim says the loop breaks as soon as the
experiment's completed-trial count has reached the quota `worker_trials`. In
`c8State` the completed count (5) is at least the quota (2) from the start,
yet `workon` run with `worker_trials = 2` consumes two further trials: the
loop is bounded only by `range(int(worker_trials))` (worker/__init__.py
lines 53-58) and no completed-count check exists in its body. -/
theorem C8_counterexample :
    2 ≤ c8State.completedCount ∧ (workonLoop 2 c8State).2.consumed = [10, 11] := by
  decide

/-- C8, amended: a call to `workon` with a finite `worker_trials` always
terminates because the loop executes at most `int(worker_trials)` iterations,
each consuming at most one trial — not because of any completed-count break,
which the body does not contain. -/
theorem C8_workon_bounded (fuel : Nat) (s : ExpState) :
    (workonLoop fuel s).2.consumed.length ≤ s.consumed.length + fuel := by
  induction fuel generalizing s with
  | zero => simp [workonLoop]
  | succ n ih =>
    by_cases hb : s.isBroken
    · simp [workonLoop, hb]
    · by_cases hp : s.poolSize ≤ s.running
      · simp [workonLoop, hb, hp]
      · cases hpend : s.pending with
        | nil =>
          by_cases hd : s.isDone
          · simp [workonLoop, hb, hp, hpend, hd]
          · have h := ih { s with updates := s.updates + 1, produces := s.produces + 1 }
            simp only [workonLoop, hb, hp, hpend, hd] at h ⊢
            simp at h ⊢
            omega
        | cons t rest =>
          have h := ih { s with pending := rest, consumed := s.consumed ++ [t],
                                completedCount := s.completedCount + 1 }
          simp only [workonLoop, hb, hp, hpend] at h ⊢
          simp at h ⊢
          omega

/-- C7: in the Mahler backend, lies live only in the in-process `self.lies`
map keyed by the fake trial's id: registering a second lie with an
already-registered id raises `DuplicateKeyError`; a successful registration
leaves the client's task store — hence every `fetch_trials` result —
unchanged; and every trial returned by `fetch_trials` originates from a
client task, so a lie whose id is absent from the client tasks never appears
in `fetch_trials` results. -/
theorem C7_lies_isolated (s : MahlerState) (t : LieTrial) :
    ((s.lies.map Prod.fst).contains t.id = true → registerLie s t = Except.error ()) ∧
    (∀ t' s', registerLie s t = Except.ok (t', s') →
      s'.clientTasks = s.clientTasks ∧ ∀ uid, fetchTrials s' uid = fetchTrials s uid) ∧
    (∀ uid tr, tr ∈ fetchTrials s uid → tr.attrId ∈ s.clientTasks.map MTask.attrId) := by
  refine ⟨?_, ?_, ?_⟩
  · intro h
    unfold registerLie
    rw [if_pos h]
  · intro t' s' h
    unfold registerLie at h
    by_cases hc : (s.lies.map Prod.fst).contains t.id = true
    · rw [if_pos hc] at h
      cases h
    · rw [if_neg hc] at h
      simp only [Except.ok.injEq, Prod.mk.injEq] at h
      obtain ⟨-, h2⟩ := h
      subst h2
      exact ⟨rfl, fun _ => rfl⟩
  · intro uid tr htr
    have h1 : tr ∈ (s.clientTasks.filter (taskMatches s uid none)).filter
        (fun t0 => ¬ shouldIgnore s t0.tags) := by
      have := (List.perm_insertionSort
        (fun a b => mahlerSortKey a ≤ mahlerSortKey b)
        ((s.clientTasks.filter (taskMatches s uid none)).filter
          (fun t0 => ¬ shouldIgnore s t0.tags))).mem_iff.mp htr
      exact this
    have h2 : tr ∈ s.clientTasks := List.mem_of_mem_filter (List.mem_of_mem_filter h1)
    exact List.mem_map_of_mem MTask.attrId h2

/-- C7, witness: a duplicate lie id raises, a fresh registration leaves
`fetch_trials` unchanged, and a fetched trial's id comes from the client
tasks. -/
theorem C7_lies_isolated_witness :
    registerLie w7state { id := "lie1" } = Except.error () ∧
    fetchTrials { w7state with lies := w7state.lies ++ [("lie2", { id := "lie2" })] } "e1"
      = fetchTrials w7state "e1" ∧
    w7task.attrId ∈ w7state.clientTasks.map MTask.attrId := by
  refine ⟨(C7_lies_isolated w7state { id := "lie1" }).1 (by decide),
    ((C7_lies_isolated w7state { id := "lie2" }).2.1 { id := "lie2" }
      { w7state with lies := w7state.lies ++ [("lie2", { id := "lie2" })] } (by decide)).2 "e1",
    (C7_lies_isolated w7state { id := "lie2" }).2.2 "e1" w7task (by decide)⟩

/-- Helper: an absent key looks up to `none`. -/
theorem alGet_eq_none (m : List (String × PyVal)) (k : String)
    (h : k ∉ m.map Prod.fst) : alGet m k = none := by
  induction m with
  | nil => rfl
  | cons a rest ih =>
    obtain ⟨k0, w⟩ := a
    have h1 : ¬ (k0 = k) := fun hh => h (by simp [hh])
    have h2 : k ∉ rest.map Prod.fst := fun hh => h (by simp [hh])
    simp [alGet, h1, ih h2]

/-- Helper: looking up the key just assigned. -/
theorem alGet_alSet_self (m : List (String × PyVal)) (k : String) (v : PyVal) :
    alGet (alSet m k v) k = some v := by
  induction m with
  | nil => simp [alSet, alGet]
  | cons a rest ih =>
    obtain ⟨k0, w⟩ := a
    by_cases h : k0 = k <;> simp [alSet, alGet, h, ih]

/-- Helper: assignment does not disturb other keys. -/
theorem alGet_alSet_ne (m : List (String × PyVal)) (k k' : String) (v : PyVal)
    (h : k ≠ k') : alGet (alSet m k v) k' = alGet m k' := by
  induction m with
  | nil => simp [alSet, alGet, h]
  | cons a rest ih =>
    obtain ⟨k0, w⟩ := a
    by_cases h0 : k0 = k
    · subst h0
      simp [alSet, alGet, h]
    · simp [alSet, alGet, h0, ih]

/-- Helper: `merge2` on the empty later configuration. -/
theorem merge2_nil (m : List (String × PyVal)) : merge2 m [] = m := by
  simp [merge2]

/-- Helper: `merge2` skips a `None` value. -/
theorem merge2_pnone (m : List (String × PyVal)) (k : String)
    (rest : List (String × PyVal)) :
    merge2 m ((k, PyVal.pnone) :: rest) = merge2 m rest := by
  simp [merge2]

/-- Helper: `merge2` assigns an integer value. -/
theorem merge2_pint (m : List (String × PyVal)) (k : String) (n : Int)
    (rest : List (String × PyVal)) :
    merge2 m ((k, PyVal.pint n) :: rest) = merge2 (alSet m k (PyVal.pint n)) rest := by
  simp [merge2]

/-- Helper: `merge2` assigns a string value. -/
theorem merge2_pstr (m : List (String × PyVal)) (k : String) (t : String)
    (rest : List (String × PyVal)) :
    merge2 m ((k, PyVal.pstr t) :: rest) = merge2 (alSet m k (PyVal.pstr t)) rest := by
  simp [merge2]

/-- Helper: `merge2` merges a dict value into an existing dict and assigns it
otherwise. -/
theorem merge2_pdict (m : List (String × PyVal)) (k : String)
    (d rest : List (String × PyVal)) :
    merge2 m ((k, PyVal.pdict d) :: rest) =
      (match alGet m k with
       | some (PyVal.pdict d0) => merge2 (alSet m k (PyVal.pdict (merge2 d0 d))) rest
       | _ => merge2 (alSet m k (PyVal.pdict d)) rest) := by
  simp [merge2]

/-- C9: `merge_configs` merges left to right (`mergeConfigs` folds `merge2`
over the later configurations in order), and for a later configuration with
(Python-dict) unique keys the value of every key in `merge2 m c` follows the
per-key rule `mergeSpecLookup`: a later value overwrites, `None` never
overwrites, keys absent from the later dict are kept, and dicts meeting
dicts merge recursively by the same rule. -/
theorem C9_merge_configs (m c : List (String × PyVal)) (k : String)
    (cs : List (List (String × PyVal)))
    (h : (c.map Prod.fst).Nodup) :
    mergeConfigs m (c :: cs) = mergeConfigs (merge2 m c) cs ∧
    alGet (merge2 m c) k = mergeSpecLookup (alGet c k) (alGet m k) := by
  refine ⟨rfl, ?_⟩
  induction c generalizing m with
  | nil => simp [merge2_nil, alGet, mergeSpecLookup]
  | cons a rest ih =>
    obtain ⟨k', v'⟩ := a
    have hk' : k' ∉ rest.map Prod.fst := by
      simp only [List.map_cons, List.nodup_cons] at h
      exact h.1
    have hrest : (rest.map Prod.fst).Nodup := by
      simp only [List.map_cons, List.nodup_cons] at h
      exact h.2
    by_cases hkk : k' = k
    · subst hkk
      have hnone : alGet rest k' = none := alGet_eq_none rest k' hk'
      cases v' with
      | pnone =>
        rw [merge2_pnone, ih m hrest, hnone]
        simp [alGet, mergeSpecLookup]
      | pint n =>
        rw [merge2_pint, ih _ hrest, hnone]
        simp [alGet, mergeSpecLookup, alGet_alSet_self]
      | pstr t =>
        rw [merge2_pstr, ih _ hrest, hnone]
        simp [alGet, mergeSpecLookup, alGet_alSet_self]
      | pdict d =>
        rw [merge2_pdict]
        rcases hm : alGet m k' with - | w
        · rw [ih _ hrest, hnone]
          simp [alGet, mergeSpecLookup, alGet_alSet_self]
        · cases w with
          | pdict d0 =>
            rw [ih _ hrest, hnone]
            simp [alGet, mergeSpecLookup, alGet_alSet_self]
          | pnone =>
            rw [ih _ hrest, hnone]
            simp [alGet, mergeSpecLookup, alGet_alSet_self]
          | pint n =>
            rw [ih _ hrest, hnone]
            simp [alGet, mergeSpecLookup, alGet_alSet_self]
          | pstr t =>
            rw [ih _ hrest, hnone]
            simp [alGet, mergeSpecLookup, alGet_alSet_self]
    · have hget : alGet ((k', v') :: rest) k = alGet rest k := by
        simp [alGet, hkk]
      cases v' with
      | pnone =>
        rw [merge2_pnone, ih m hrest, hget]
      | pint n =>
        rw [merge2_pint, ih _ hrest, hget, alGet_alSet_ne m k' k _ hkk]
      | pstr t =>
        rw [merge2_pstr, ih _ hrest, hget, alGet_alSet_ne m k' k _ hkk]
      | pdict d =>
        rw [merge2_pdict]
        rcases hm : alGet m k' with - | w
        · rw [ih _ hrest, hget, alGet_alSet_ne m k' k _ hkk]
        · cases w with
          | pdict d0 =>
            rw [ih _ hrest, hget, alGet_alSet_ne m k' k _ hkk]
          | pnone =>
            rw [ih _ hrest, hget, alGet_alSet_ne m k' k _ hkk]
          | pint n =>
            rw [ih _ hrest, hget, alGet_alSet_ne m k' k _ hkk]
          | pstr t =>
            rw [ih _ hrest, hget, alGet_alSet_ne m k' k _ hkk]

/-- Helper: finding the updated key after an in-place store update. -/
theorem findUpd_self {α : Type _} (l : List (Nat × α)) (i : Nat) (f : α → α) :
    (l.map (fun p => if p.1 = i then (p.1, f p.2) else p)).find? (fun p => p.1 = i)
      = (l.find? (fun p => p.1 = i)).map (fun p => (p.1, f p.2)) := by
  induction l with
  | nil => rfl
  | cons a rest ih =>
    by_cases h : a.1 = i
    · simp [List.find?_cons, h]
    · simp [List.find?_cons, h, ih]

/-- Helper: an in-place store update at one key leaves other keys' lookups
unchanged. -/
theorem findUpd_ne {α : Type _} (l : List (Nat × α)) (i j : Nat) (f : α → α)
    (hij : i ≠ j) :
    (l.map (fun p => if p.1 = i then (p.1, f p.2) else p)).find? (fun p => p.1 = j)
      = l.find? (fun p => p.1 = j) := by
  induction l with
  | nil => rfl
  | cons a rest ih =>
    simp only [List.map_cons]
    by_cases h : a.1 = i
    · rw [if_pos h,
        List.find?_cons_of_neg _ (by simp [h, hij]),
        List.find?_cons_of_neg _ (by simp [h, hij]), ih]
    · by_cases hj : a.1 = j
      · rw [if_neg h,
          List.find?_cons_of_pos _ (by simp [hj]),
          List.find?_cons_of_pos _ (by simp [hj])]
      · rw [if_neg h,
          List.find?_cons_of_neg _ (by simp [hj]),
          List.find?_cons_of_neg _ (by simp [hj]), ih]

/-- Helper: finding a freshly appended entry whose key is new. -/
theorem findAppend_fresh {α : Type _} (l : List (Nat × α)) (i : Nat) (v : α)
    (h : ∀ p ∈ l, p.1 ≠ i) :
    (l ++ [(i, v)]).find? (fun p => p.1 = i) = some (i, v) := by
  induction l with
  | nil => simp [List.find?]
  | cons a rest ih =>
    have ha : ¬ (a.1 = i) := h a (List.mem_cons_self a rest)
    rw [List.cons_append, List.find?_cons_of_neg _ (by simp [ha])]
    exact ih (fun p hp => h p (List.mem_cons_of_mem a hp))

/-- Helper: appending a fresh entry does not change the lookup of an old key. -/
theorem findAppend_old {α : Type _} (l : List (Nat × α)) (i : Nat) (v : α) (j : Nat)
    (h : i ≠ j) :
    (l ++ [(i, v)]).find? (fun p => p.1 = j) = l.find? (fun p => p.1 = j) := by
  induction l with
  | nil => simp [List.find?, h]
  | cons a rest ih =>
    by_cases ha : a.1 = j
    · rw [List.cons_append, List.find?_cons_of_pos _ (by simp [ha]),
        List.find?_cons_of_pos _ (by simp [ha])]
    · rw [List.cons_append, List.find?_cons_of_neg _ (by simp [ha]),
        List.find?_cons_of_neg _ (by simp [ha]), ih]

/-- Helper: `lookupC` after `updateC` at the same id. -/
theorem lookupC_updateC_self (s : EvcState) (i : Nat) (f : ConflictRec → ConflictRec) :
    lookupC (updateC s i f) i = (lookupC s i).map f := by
  unfold lookupC updateC
  rw [findUpd_self]
  cases s.conflicts.find? (fun p => p.1 = i) <;> rfl

/-- Helper: `lookupC` after `updateC` at a different id. -/
theorem lookupC_updateC_ne (s : EvcState) (i j : Nat) (f : ConflictRec → ConflictRec)
    (hij : i ≠ j) :
    lookupC (updateC s i f) j = lookupC s j := by
  unfold lookupC updateC
  rw [findUpd_ne _ _ _ _ hij]

/-- Helper: `lookupR` after `updateR` at the same id. -/
theorem lookupR_updateR_self (s : EvcState) (i : Nat) (f : ResolutionRec → ResolutionRec) :
    lookupR (updateR s i f) i = (lookupR s i).map f := by
  unfold lookupR updateR
  rw [findUpd_self]
  cases s.resolutions.find? (fun p => p.1 = i) <;> rfl

/-- C10: if the dispatched `conflict.try_resolve` raises anything but
`KeyboardInterrupt`, the wrapper `Conflicts.try_resolve` returns `None` and
leaves the conflict unresolved — its `resolution` pointer is `None` and
`is_resolved` is false; if it returns a resolution, the resolution's
side-effect conflicts `new_conflicts` are appended to the handler's conflict
list. -/
theorem C10_try_resolve_wrapper (f : EvcState → TryResolveOutcome) (cid : Nat)
    (s sp : EvcState) :
    (f s = TryResolveOutcome.raised false sp →
      ∃ s', conflictsTryResolve f cid s = some (none, s') ∧
        ∀ c, lookupC s' cid = some c → c.resolution = none ∧ isResolved c = false) ∧
    (∀ rid r, f s = TryResolveOutcome.returned (some rid) sp → lookupR sp rid = some r →
      conflictsTryResolve f cid s
        = some (some rid, { sp with handler := sp.handler ++ r.newConflicts })) := by
  constructor
  · intro hf
    refine ⟨_, by rw [conflictsTryResolve, hf], ?_⟩
    intro c hc
    rw [lookupC_updateC_self] at hc
    rcases h0 : lookupC sp cid with - | c0
    · rw [h0] at hc
      cases hc
    · rw [h0] at hc
      simp only [Option.map_some', Option.some.injEq] at hc
      subst hc
      exact ⟨rfl, rfl⟩
  · intro rid r hf hr
    simp [conflictsTryResolve, hf, hr]

/-- C10, witness: the wrapper at a raising `try_resolve` and at a succeeding
one, on concrete states. -/
theorem C10_try_resolve_wrapper_witness :
    (∃ s', conflictsTryResolve (fun _ => TryResolveOutcome.raised false c10sp) 0 evcS0
        = some (none, s') ∧
      ∀ c, lookupC s' 0 = some c → c.resolution = none ∧ isResolved c = false) ∧
    conflictsTryResolve (fun _ => TryResolveOutcome.returned (some 1) c10sq) 0 evcS0
      = some (some 1, { c10sq with handler := c10sq.handler ++ [7] }) := by
  constructor
  · exact (C10_try_resolve_wrapper
      (fun _ => TryResolveOutcome.raised false c10sp) 0 evcS0 c10sp).1 rfl
  · exact (C10_try_resolve_wrapper
      (fun _ => TryResolveOutcome.returned (some 1) c10sq) 0 evcS0 c10sq).2 1
      { kind := RKind.renameDim, conflictId := 0, newDimConflictId := none,
        newConflicts := [7], defaultValue := none } rfl (by decide)

/-- Helper: membership in a key-preserving map of a store preserves keys. -/
theorem memUpd_fst {α : Type _} (l : List (Nat × α)) (g : Nat × α → Nat × α)
    (hg : ∀ q, (g q).1 = q.1) (p : Nat × α) (hp : p ∈ l.map g) :
    ∃ q ∈ l, p.1 = q.1 := by
  obtain ⟨q, hq, rfl⟩ := List.mem_map.mp hp
  exact ⟨q, hq, hg q⟩


/-- C4: building a `RenameDimensionResolution` for a missing-dimension
conflict whose prior differs from the paired new-dimension conflict's prior
creates exactly one side-effect conflict — the resolution's `new_conflicts`
is the singleton holding the fresh `ChangedDimensionConflict`, which carries
the new (rename-target) dimension with `old_prior` the missing dimension's
prior and `new_prior` the new dimension's prior; with equal priors no
side-effect conflict is created. The freshness hypotheses say the store's ids
are below the fresh-id counter. -/
theorem C4_rename_side_effect (s : EvcState) (cid nid : Nat) (mc ncn : ConflictRec)
    (hm : lookupC s cid = some mc) (hn : lookupC s nid = some ncn)
    (hfreshC : ∀ p ∈ s.conflicts, p.1 < s.nextId)
    (hfreshR : ∀ p ∈ s.resolutions, p.1 < s.nextId) :
    (mc.prior ≠ ncn.prior →
      (mkRenameResolution s cid nid).map
          (fun p => ((lookupR p.2 p.1).map ResolutionRec.newConflicts,
                     lookupC p.2 (s.nextId + 1)))
        = some (some [s.nextId + 1], some
            { kind := CKind.changedDim, dim := ncn.dim, prior := none,
              oldPrior := mc.prior, newPrior := ncn.prior, extArgs := mc.extArgs,
              isResolvedFlag := some false, resolution := none })) ∧
    (mc.prior = ncn.prior →
      (mkRenameResolution s cid nid).map
          (fun p => (lookupR p.2 p.1).map ResolutionRec.newConflicts)
        = some (some [])) := by
  have hR : ∀ p ∈ s.resolutions, p.1 ≠ s.nextId :=
    fun p hp => Nat.ne_of_lt (hfreshR p hp)
  constructor
  · intro hne
    simp only [mkRenameResolution, hm, hn]
    rw [if_pos hne]
    simp only [Option.map_some', lookupR, lookupC, updateC]
    have hC : ∀ p ∈ (s.conflicts.map
          (fun q => if q.1 = cid then (q.1, { q.2 with resolution := some s.nextId }) else q)).map
          (fun q => if q.1 = nid then (q.1, { q.2 with resolution := some s.nextId }) else q),
        p.1 ≠ s.nextId + 1 := by
      intro p hp
      obtain ⟨q, hq, e1⟩ := memUpd_fst _ _ (fun q => by split <;> rfl) p hp
      obtain ⟨q0, hq0, e2⟩ := memUpd_fst _ _ (fun q => by split <;> rfl) q hq
      have := hfreshC q0 hq0
      omega
    rw [findAppend_fresh _ _ _ hR, findAppend_fresh _ _ _ hC]
    rfl
  · intro heq
    simp only [mkRenameResolution, hm, hn]
    rw [if_neg (by simp [heq])]
    simp only [Option.map_some', lookupR, updateC]
    rw [findAppend_fresh _ _ _ hR]
    rfl

/-- Helper: `lookupC` reads only the conflict store. -/
theorem lookupC_congr (s1 s2 : EvcState) (i : Nat) (h : s1.conflicts = s2.conflicts) :
    lookupC s1 i = lookupC s2 i := by
  unfold lookupC
  rw [h]

/-- Helper: `Conflicts.deprecate` on conflicts occurring exactly once in the
handler's list succeeds, removes every one of them, touches nothing else, and
leaves the stores alone. -/
theorem deprecate_removes (dep : List Nat) (s : EvcState)
    (hnd : dep.Nodup) (h1 : ∀ d ∈ dep, s.handler.count d = 1) :
    ∃ s', deprecate s dep = some s' ∧
      s'.conflicts = s.conflicts ∧ s'.resolutions = s.resolutions ∧
      (∀ d ∈ dep, s'.handler.count d = 0) ∧
      (∀ x, x ∉ dep → s'.handler.count x = s.handler.count x) := by
  induction dep generalizing s with
  | nil => exact ⟨s, rfl, rfl, rfl, by simp, fun x _ => rfl⟩
  | cons d ds ih =>
    have hcd : s.handler.count d = 1 := h1 d (List.mem_cons_self d ds)
    have hmem : d ∈ s.handler := List.count_pos_iff.mp (by omega)
    have hdns : d ∉ ds := (List.nodup_cons.mp hnd).1
    have hnd' : ds.Nodup := (List.nodup_cons.mp hnd).2
    have hstep : deprecate s (d :: ds)
        = deprecate { s with handler := s.handler.erase d } ds := by
      unfold deprecate
      rw [List.foldlM_cons]
      rw [if_pos (by simpa using hmem)]
      rfl
    have h1' : ∀ d' ∈ ds, ({ s with handler := s.handler.erase d } : EvcState).handler.count d' = 1 := by
      intro d' hd'
      have hne : d' ≠ d := fun hh => hdns (hh ▸ hd')
      show (s.handler.erase d).count d' = 1
      rw [List.count_erase_of_ne hne]
      exact h1 d' (List.mem_cons_of_mem d hd')
    obtain ⟨s', he, hc, hrr, hz, hk⟩ := ih { s with handler := s.handler.erase d } hnd' h1'
    refine ⟨s', by rw [hstep]; exact he, hc, hrr, ?_, ?_⟩
    · intro d' hd'
      rcases List.mem_cons.mp hd' with rfl | htail
      · rw [hk d' hdns]
        show (s.handler.erase d').count d' = 0
        rw [List.count_erase_self]
        omega
      · exact hz d' htail
    · intro x hx
      have hx1 : x ≠ d := fun hh => hx (by simp [hh])
      have hx2 : x ∉ ds := fun hh => hx (List.mem_cons_of_mem d hh)
      rw [hk x hx2]
      show (s.handler.erase d).count x = s.handler.count x
      rw [List.count_erase_of_ne hx1]

/-- Helper: `lookupC` ignores resolution-store updates. -/
theorem lookupC_updateR (s : EvcState) (i j : Nat) (f : ResolutionRec → ResolutionRec) :
    lookupC (updateR s i f) j = lookupC s j := rfl


/-- C3, amended, covering every resolution. Rename resolutions
(first three conjuncts): `RenameDimensionResolution.revert` nulls its
conflict's and the paired new-dimension conflict's `resolution` pointers and
returns exactly the side-effect conflicts it introduced; `Conflicts.revert`
then removes those deprecated conflicts from the handler's conflict list
(leaving every other conflict in place) — but, against the claim's final
clause, the first deprecated side-effect conflict IS marked resolved in the
process: the revert sets its `_is_resolved` attribute to `True` (conflicts.py
line 927) before the removal. Every other resolution (last conjunct): the
base `Resolution.revert` (conflicts.py lines 471-474) nulls the conflict's
`resolution` pointer and returns the empty list of side-effect conflicts
(non-rename resolutions introduce none), so `Conflicts.revert` removes
nothing from the handler's list and no conflict's `_is_resolved` attribute
changes. -/
theorem C3_revert_deprecates (s : EvcState) (rid cid nid : Nat) (r : ResolutionRec)
    (mc ncn : ConflictRec)
    (hr : lookupR s rid = some r) (hkind : r.kind = RKind.renameDim)
    (hcid : r.conflictId = cid) (hnid : r.newDimConflictId = some nid) (hne : cid ≠ nid)
    (hm : lookupC s cid = some mc) (hn : lookupC s nid = some ncn)
    (hddisj : ∀ d ∈ r.newConflicts, d ≠ cid ∧ d ≠ nid)
    (hdnd : r.newConflicts.Nodup)
    (hcount : ∀ d ∈ r.newConflicts, s.handler.count d = 1) :
    (resolutionRevert s rid).map Prod.fst = some r.newConflicts ∧
    (resolutionRevert s rid).map
        (fun p => ((lookupC p.2 cid).map ConflictRec.resolution,
                   (lookupC p.2 nid).map ConflictRec.resolution))
      = some (some none, some none) ∧
    (∃ s', conflictsRevert s rid = some s' ∧
      (∀ d ∈ r.newConflicts, s'.handler.count d = 0) ∧
      (∀ x, x ∉ r.newConflicts → s'.handler.count x = s.handler.count x) ∧
      (∀ d0 rest, r.newConflicts = d0 :: rest →
        (lookupC s' d0).map ConflictRec.isResolvedFlag
          = (lookupC s d0).map (fun _ => some true))) ∧
    (∀ s2 rid2 r2 c2, lookupR s2 rid2 = some r2 →
      r2.kind ≠ RKind.renameDim → r2.newConflicts = [] →
      lookupC s2 r2.conflictId = some c2 →
      (resolutionRevert s2 rid2).map Prod.fst = some r2.newConflicts ∧
      ∃ s2', conflictsRevert s2 rid2 = some s2' ∧
        s2'.handler = s2.handler ∧
        (lookupC s2' r2.conflictId).map ConflictRec.resolution = some none ∧
        (∀ j, (lookupC s2' j).map ConflictRec.isResolvedFlag
          = (lookupC s2 j).map ConflictRec.isResolvedFlag)) := by
  have hbase : ∀ s2 rid2 r2 c2, lookupR s2 rid2 = some r2 →
      r2.kind ≠ RKind.renameDim → r2.newConflicts = [] →
      lookupC s2 r2.conflictId = some c2 →
      (resolutionRevert s2 rid2).map Prod.fst = some r2.newConflicts ∧
      ∃ s2', conflictsRevert s2 rid2 = some s2' ∧
        s2'.handler = s2.handler ∧
        (lookupC s2' r2.conflictId).map ConflictRec.resolution = some none ∧
        (∀ j, (lookupC s2' j).map ConflictRec.isResolvedFlag
          = (lookupC s2 j).map ConflictRec.isResolvedFlag) := by
    intro s2 rid2 r2 c2 hr2 hk2 hnc2 hc2
    have hrr2 : resolutionRevert s2 rid2
        = some ([], updateC s2 r2.conflictId (fun c => { c with resolution := none })) := by
      simp only [resolutionRevert, hr2]
      rw [if_neg hk2]
    constructor
    · rw [hrr2, hnc2]
      rfl
    · refine ⟨updateC s2 r2.conflictId (fun c => { c with resolution := none }),
        ?_, rfl, ?_, ?_⟩
      · unfold conflictsRevert
        rw [hrr2]
        rfl
      · rw [lookupC_updateC_self, hc2]
        rfl
      · intro j
        by_cases hj : r2.conflictId = j
        · subst hj
          rw [lookupC_updateC_self, hc2]
          rfl
        · rw [lookupC_updateC_ne _ _ _ _ hj]
  rcases hdep : r.newConflicts with - | ⟨d0, rest⟩
  · have hrr1 : resolutionRevert s rid = some ([],
        updateR (updateC (updateC s cid (fun c => { c with resolution := none }))
            nid (fun c => { c with resolution := none }))
          rid (fun r0 => { r0 with newConflicts := [] })) := by
      simp only [resolutionRevert, hr]
      rw [if_pos hkind, hcid, hnid, hdep]
    refine ⟨by rw [hrr1]; rfl, ?_, ?_, hbase⟩
    · rw [hrr1]
      simp only [Option.map_some']
      rw [lookupC_updateR, lookupC_updateR,
        lookupC_updateC_ne _ nid cid _ (Ne.symm hne), lookupC_updateC_self, hm,
        lookupC_updateC_self, lookupC_updateC_ne _ cid nid _ hne, hn]
      rfl
    · obtain ⟨s', he, hc, hrr, hz, hk⟩ := deprecate_removes []
        (updateR (updateC (updateC s cid (fun c => { c with resolution := none }))
            nid (fun c => { c with resolution := none }))
          rid (fun r0 => { r0 with newConflicts := [] }))
        (by simp) (by simp)
      refine ⟨s', ?_, by simp, fun x hx => hk x (by simp), ?_⟩
      · unfold conflictsRevert
        rw [hrr1]
        exact he
      · intro d0 rest hcontra
        cases hcontra
  · have hd0 : d0 ∈ r.newConflicts := by rw [hdep]; exact List.mem_cons_self d0 rest
    have hd0c : d0 ≠ cid := (hddisj d0 hd0).1
    have hd0n : d0 ≠ nid := (hddisj d0 hd0).2
    have hrr1 : resolutionRevert s rid = some (d0 :: rest,
        updateR (updateC (updateC (updateC s cid (fun c => { c with resolution := none }))
              nid (fun c => { c with resolution := none }))
            d0 (fun c => { c with isResolvedFlag := some true }))
          rid (fun r0 => { r0 with newConflicts := [] })) := by
      simp only [resolutionRevert, hr]
      rw [if_pos hkind, hcid, hnid, hdep]
    refine ⟨by rw [hrr1]; rfl, ?_, ?_, hbase⟩
    · rw [hrr1]
      simp only [Option.map_some']
      rw [lookupC_updateR, lookupC_updateR,
        lookupC_updateC_ne _ d0 cid _ hd0c,
        lookupC_updateC_ne _ nid cid _ (Ne.symm hne), lookupC_updateC_self, hm,
        lookupC_updateC_ne _ d0 nid _ hd0n,
        lookupC_updateC_self, lookupC_updateC_ne _ cid nid _ hne, hn]
      rfl
    · obtain ⟨s', he, hc, hrr, hz, hk⟩ := deprecate_removes (d0 :: rest)
        (updateR (updateC (updateC (updateC s cid (fun c => { c with resolution := none }))
              nid (fun c => { c with resolution := none }))
            d0 (fun c => { c with isResolvedFlag := some true }))
          rid (fun r0 => { r0 with newConflicts := [] }))
        (hdep ▸ hdnd) (fun d hd => hcount d (hdep ▸ hd))
      refine ⟨s', ?_, hz, fun x hx => hk x hx, ?_⟩
      · unfold conflictsRevert
        rw [hrr1]
        exact he
      · intro d0' rest' hinj
        injection hinj with h1 h2
        subst h1
        subst h2
        have hl : lookupC s' d0 = lookupC
            (updateR (updateC (updateC (updateC s cid (fun c => { c with resolution := none }))
                  nid (fun c => { c with resolution := none }))
                d0 (fun c => { c with isResolvedFlag := some true }))
              rid (fun r0 => { r0 with newConflicts := [] })) d0 :=
          lookupC_congr _ _ d0 hc
        rw [hl, lookupC_updateR, lookupC_updateC_self,
          lookupC_updateC_ne _ nid d0 _ (Ne.symm hd0n),
          lookupC_updateC_ne _ cid d0 _ (Ne.symm hd0c)]
        cases lookupC s d0 <;> rfl

/-- C3, counterexample: the claim says no conflict is marked resolved while
reverting. In the concrete rename scenario (`evcS2`: rename of `x` to `y`
with differing priors, side-effect changed-dimension conflict id 3 registered
in the handler), `Conflicts.revert` does remove the deprecated conflict from
the handler's list — but the deprecated conflict's `_is_resolved` attribute
has been set to `True` by `RenameDimensionResolution.revert`. -/
theorem C3_counterexample :
    conflictsRevert evcS2 2 = some evcS3 ∧
    evcS3.handler = [0, 1] ∧
    (lookupC evcS3 3).map ConflictRec.isResolvedFlag = some (some true) := by
  decide

/-- C3, witness: the amended revert theorem at the concrete rename scenario
`evcS2`, and its base-resolution clause at the concrete remove-dimension
resolution of `evcBase`. -/
theorem C3_revert_deprecates_witness :
    (resolutionRevert evcS2 2).map Prod.fst = some [3] ∧
    (resolutionRevert evcS2 2).map
        (fun p => ((lookupC p.2 0).map ConflictRec.resolution,
                   (lookupC p.2 1).map ConflictRec.resolution))
      = some (some none, some none) ∧
    (∃ s', conflictsRevert evcS2 2 = some s' ∧
      (∀ d ∈ ([3] : List Nat), s'.handler.count d = 0) ∧
      (∀ x, x ∉ ([3] : List Nat) → s'.handler.count x = evcS2.handler.count x) ∧
      (∀ d0 rest, ([3] : List Nat) = d0 :: rest →
        (lookupC s' d0).map ConflictRec.isResolvedFlag
          = (lookupC evcS2 d0).map (fun _ => some true))) ∧
    ((resolutionRevert evcBase 1).map Prod.fst = some [] ∧
      ∃ s2', conflictsRevert evcBase 1 = some s2' ∧
        s2'.handler = evcBase.handler ∧
        (lookupC s2' 0).map ConflictRec.resolution = some none ∧
        (∀ j, (lookupC s2' j).map ConflictRec.isResolvedFlag
          = (lookupC evcBase j).map ConflictRec.isResolvedFlag)) := by
  have h := C3_revert_deprecates evcS2 2 0 1
    { kind := RKind.renameDim, conflictId := 0, newDimConflictId := some 1,
      newConflicts := [3], defaultValue := none }
    { missingX with resolution := some 2 } { newDimY with resolution := some 2 }
    (by decide) rfl rfl rfl (by decide) (by decide) (by decide)
    (by decide) (by decide) (by decide)
  exact ⟨h.1, h.2.1, h.2.2.1, h.2.2.2 evcBase 1
    { kind := RKind.removeDim, conflictId := 0, newDimConflictId := none,
      newConflicts := [], defaultValue := some 3 }
    { missingX with resolution := some 1 }
    (by decide) (by decide) rfl (by decide)⟩

/-- C4, witness: the rename of `x` to `y` with differing priors on the
concrete store `evcS0` creates exactly the side-effect changed-dimension
conflict id 3, tied to dimension `y`, with the missing dimension's prior as
`old_prior` and the new dimension's prior as `new_prior`. -/
theorem C4_rename_side_effect_witness :
    (mkRenameResolution evcS0 0 1).map
        (fun p => ((lookupR p.2 p.1).map ResolutionRec.newConflicts, lookupC p.2 3))
      = some (some [3], some
          { kind := CKind.changedDim, dim := some dimY, prior := none,
            oldPrior := some "uniform(0, 10)", newPrior := some "uniform(0, 5)",
            extArgs := ["-x~-3", "-x~>y"], isResolvedFlag := some false,
            resolution := none }) :=
  (C4_rename_side_effect evcS0 0 1 missingX newDimY (by decide) (by decide)
    (by decide) (by decide)).1 (by decide)

/-- Helper: a key-sorted list whose keys are pairwise distinct is strictly
key-sorted. -/
theorem sorted_keyLt_of_nodup {β : Type _} (l : List (String × β))
    (hs : List.Sorted keyLe l) (hn : (l.map Prod.fst).Nodup) :
    List.Sorted keyLt l := by
  have hpair : l.Pairwise (fun a b => a.1 ≠ b.1) := (List.pairwise_map).mp hn
  exact (hs.and hpair).imp (fun h => lt_of_le_of_ne h.1 h.2)

/-- Helper: two permuted lists with duplicate-free keys have the same
key-sorted form. -/
theorem insertionSort_key_perm_eq {β : Type _} (l1 l2 : List (String × β))
    (hp : l1.Perm l2) (hn : (l1.map Prod.fst).Nodup) :
    List.insertionSort keyLe l1 = List.insertionSort keyLe l2 := by
  have hp1 := List.perm_insertionSort keyLe l1
  have hp2 := List.perm_insertionSort keyLe l2
  have hn1 : ((List.insertionSort keyLe l1).map Prod.fst).Nodup :=
    ((hp1.map Prod.fst).nodup_iff).mpr hn
  have hn2 : ((List.insertionSort keyLe l2).map Prod.fst).Nodup :=
    ((hp2.map Prod.fst).nodup_iff).mpr ((hp.map Prod.fst).nodup_iff.mp hn)
  exact List.eq_of_perm_of_sorted
    (hp1.trans (hp.trans hp2.symm))
    (sorted_keyLt_of_nodup _ (List.sorted_insertionSort keyLe l1) hn1)
    (sorted_keyLt_of_nodup _ (List.sorted_insertionSort keyLe l2) hn2)

/-- C6: `detect_conflicts` is deterministic and independent of
conflict-class registration order: for two registries holding the same
(distinctly named) conflict classes in any orders, dispatching over the
name-sorted registry yields the same conflicts in the same order for the
same pair of configurations. -/
theorem C6_detect_order_independent {γ κ : Type _}
    (reg1 reg2 : List (String × (γ → γ → List κ)))
    (oldConfig newConfig : γ)
    (hp : reg1.Perm reg2) (hn : (reg1.map Prod.fst).Nodup) :
    detectConflictsWith reg1 oldConfig newConfig
      = detectConflictsWith reg2 oldConfig newConfig := by
  unfold detectConflictsWith
  rw [insertionSort_key_perm_eq reg1 reg2 hp hn]

/-- C6, witness: two registration orders of two named detectors give the same
detection output. -/
theorem C6_detect_order_independent_witness :
    detectConflictsWith
        [("BConflict", fun _ _ => ([2] : List Nat)), ("AConflict", fun _ _ => ([1] : List Nat))]
        (0 : Nat) 0
      = detectConflictsWith
        [("AConflict", fun _ _ => ([1] : List Nat)), ("BConflict", fun _ _ => ([2] : List Nat))]
        (0 : Nat) 0 :=
  C6_detect_order_independent
    [("BConflict", fun _ _ => ([2] : List Nat)), ("AConflict", fun _ _ => ([1] : List Nat))]
    [("AConflict", fun _ _ => ([1] : List Nat)), ("BConflict", fun _ _ => ([2] : List Nat))]
    0 0
    (List.Perm.swap ("AConflict", fun _ _ => ([1] : List Nat))
      ("BConflict", fun _ _ => ([2] : List Nat)) [])
    (by decide)

/-- C5: for a missing-dimension conflict, `get_marked_arguments` returns the
remove-marker arguments whenever a remove marker is present on the user's new
command line (and the deep-copy resolution construction and the value cast do
not raise), regardless of any available new-dimension conflict for a rename;
and the rename-marker arguments are returned only when no remove marker is
found. -/
theorem C5_remove_marker_wins (s : EvcState) (c : ConflictRec) (d : DimData) (arg : String)
    (hres : isResolved c = false)
    (hdim : c.dim = some d)
    (hdv : ∀ v, d.defaultValue = some v → dimContains d v = true)
    (hfind : findMarked c.extArgs (d.name.toList ++ removeMarkerL) = some arg)
    (hpiece : (splitOn2 '~' '-' arg.toList).getD 1 [] = [] ∨
      (parseIntL ((splitOn2 '~' '-' arg.toList).getD 1 [])).isSome = true) :
    (∃ p, getMarkedArguments s c = Except.ok (some (MarkedArgs.removeA p), s)) ∧
    (∀ s0 c0 n s', getMarkedArguments s0 c0 = Except.ok (some (MarkedArgs.renameA n), s') →
      findMarked c0.extArgs (((c0.dim.map DimData.name).getD "").toList ++ removeMarkerL)
        = none) := by
  constructor
  · have hokDef : (match d.defaultValue with
        | none => true
        | some v => dimContains d v) = true := by
      cases hdv0 : d.defaultValue with
      | none => rfl
      | some v => exact hdv v hdv0
    have hrem : ∃ p, getMarkedRemoveArguments c = Except.ok (some p) := by
      simp only [String.toList] at hfind
      rcases hpiece with hp1 | hp2
      · refine ⟨RemovePayload.noDefault, ?_⟩
        rw [List.getD_eq_getElem?_getD] at hp1
        simp only [String.toList] at hp1
        simp [getMarkedRemoveArguments, hres, hdim, hfind, hokDef, hp1]
      · have hpne : (splitOn2 '~' '-' arg.toList).getD 1 [] ≠ [] := by
          intro hh
          rw [hh] at hp2
          exact absurd hp2 (by decide)
        obtain ⟨v, hv⟩ := Option.isSome_iff_exists.mp hp2
        rw [List.getD_eq_getElem?_getD] at hpne hv
        simp only [String.toList] at hpne hv
        refine ⟨RemovePayload.withDefault v, ?_⟩
        simp [getMarkedRemoveArguments, hres, hdim, hfind, hokDef, hpne, hv]
    obtain ⟨p, hremEq⟩ := hrem
    refine ⟨p, ?_⟩
    unfold getMarkedArguments
    rw [hremEq]
  · intro s0 c0 n s' h
    unfold getMarkedArguments at h
    rcases hrem0 : getMarkedRemoveArguments c0 with e | op
    · rw [hrem0] at h
      simp at h
    · rcases op with - | p
      · rw [hrem0] at h
        by_cases hres0 : isResolved c0 = true
        · rcases hnew : newDimConflictsOf s0 with - | ⟨q, qs⟩
          · simp [getMarkedRenameArguments, hnew] at h
          · simp [getMarkedRenameArguments, hnew, hres0] at h
        · unfold getMarkedRemoveArguments at hrem0
          rw [if_neg hres0] at hrem0
          rcases hdim0 : c0.dim with - | d0
          · rw [hdim0] at hrem0
            simp at hrem0
          · rw [hdim0] at hrem0
            cases hok0 : (match d0.defaultValue with
                | none => true
                | some v => dimContains d0 v) with
            | false =>
              exfalso
              simp [hok0] at hrem0
            | true =>
              rcases hf0 : findMarked c0.extArgs (d0.name.toList ++ removeMarkerL) with - | arg0
              · simpa [hdim0] using hf0
              · exfalso
                simp only [String.toList] at hf0
                by_cases hp0 : (splitOn2 '~' '-' arg0.toList).getD 1 [] = []
                · rw [List.getD_eq_getElem?_getD] at hp0
                  simp only [String.toList] at hp0
                  simp [hok0, hf0, hp0] at hrem0
                · rcases ht0 : parseIntL ((splitOn2 '~' '-' arg0.toList).getD 1 []) with - | v
                  · rw [List.getD_eq_getElem?_getD] at hp0 ht0
                    simp only [String.toList] at hp0 ht0
                    simp [hok0, hf0, hp0, ht0] at hrem0
                  · rw [List.getD_eq_getElem?_getD] at hp0 ht0
                    simp only [String.toList] at hp0 ht0
                    simp [hok0, hf0, hp0, ht0] at hrem0
      · rw [hrem0] at h
        simp at h

/-- C5, witness: on the concrete store `evcS0` — where a new-dimension
conflict on `y` is available for a rename and the command line carries both
`-x~-3` and `-x~>y` — the remove marker wins. -/
theorem C5_remove_marker_wins_witness :
    ∃ p, getMarkedArguments evcS0 missingX = Except.ok (some (MarkedArgs.removeA p), evcS0) :=
  (C5_remove_marker_wins evcS0 missingX dimX "-x~-3"
    (by decide) (by decide) (fun _ hv => Option.noConfusion hv)
    (by decide) (Or.inr (by decide))).1

/-- C9, witness: the per-key rule at a concrete pair — a later `None` does
not overwrite the earlier value. -/
theorem C9_merge_configs_witness :
    alGet (merge2 [("a", PyVal.pint 1)] [("a", PyVal.pnone)]) "a" = some (PyVal.pint 1) := by
  have h := (C9_merge_configs [("a", PyVal.pint 1)] [("a", PyVal.pnone)] "a" [] (by simp)).2
  rw [h]
  rfl
